import Mathlib

/-!
Verification of the task-orchestration core of the ai_browser_automation
repository (backend/task_manager.py, backend/browser_api.py,
automation/browser_automation.py, automation/ai_processor.py).

The Python code is shallowly embedded: Python dicts become association
lists (`alookup` / `dictInsert` reproduce CPython lookup and assignment
semantics, including insertion-order preservation and in-place overwrite),
`time.time()` timestamps become explicit `Nat` parameters, and the external
capabilities (Selenium browser, AI processor) become an explicit
environment record `Env`.  All browser/AI capability methods in the source
catch their own exceptions internally and return values (navigate_to_url
returns a Bool, extract_data returns a dict, fill_form returns a Bool,
close swallows its errors), so they are modelled as total functions; the
one raising path inside the worker's try-block is the explicit
`raise Exception(f"Failed to navigate to URL: {task.url}")`.

Registry operations in the source are guarded by `self.lock`; operation
sequences are therefore modelled at operation granularity by the
transition relation `SysStep`.
-/

namespace ABA

/-- Statuses of a task, from the `TaskStatus` enum in task_manager.py. -/
inductive TaskStatus where
  | pending
  | running
  | completed
  | failed
deriving DecidableEq, Repr

/-- Values appearing in a task's result dictionary: strings, booleans and
lists of strings (the shapes the worker body actually stores). -/
inductive RVal where
  | s (v : String)
  | b (v : Bool)
  | l (v : List String)
deriving DecidableEq, Repr

/-- The `Task` class of task_manager.py: immutable identity fields plus
mutable status/result/error record. -/
structure Task where
  id : String
  url : String
  description : String
  task_type : String
  status : TaskStatus
  created_at : Nat
  updated_at : Nat
  result : Option (List (String × RVal))
  error : Option String
deriving DecidableEq, Repr

/-- Task.update_status: sets the status, stores the error only when the
argument is truthy (a non-empty string, per Python's `if error:`), and
refreshes updated_at. -/
def Task.update_status (t : Task) (status : TaskStatus) (error : Option String)
    (now : Nat) : Task :=
  { t with
    status := status
    error := match error with
      | some e => if e = "" then t.error else some e
      | none => t.error
    updated_at := now }

/-- Lookup in an association list, as CPython dict indexing (first — and,
with distinct keys, only — binding wins). -/
def alookup {α : Type} (m : List (String × α)) (k : String) : Option α :=
  match m with
  | [] => none
  | (k', v) :: rest => if k' = k then some v else alookup rest k

/-- CPython dict assignment `m[k] = v`: overwrite in place when the key is
present, append at the end otherwise (insertion order is preserved). -/
def dictInsert {α : Type} (m : List (String × α)) (k : String) (v : α) :
    List (String × α) :=
  match m with
  | [] => [(k, v)]
  | (k', v') :: rest =>
      if k' = k then (k, v) :: rest else (k', v') :: dictInsert rest k v

/-- The TaskManager's state: the `self.tasks` dict, as an insertion-ordered
association list (CPython dicts iterate in insertion order). -/
structure TaskManager where
  tasks : List (String × Task)
deriving DecidableEq, Repr

/-- TaskManager.get_task: `self.tasks.get(task_id)`. -/
def TaskManager.get_task (mgr : TaskManager) (task_id : String) : Option Task :=
  alookup mgr.tasks task_id

/-- TaskManager.create_task: builds a Task (status PENDING, empty
result/error) and stores it under its id.  The id plays the role of the
freshly generated uuid4 string; the transition system below requires it to
be unused, modelling uuid freshness. -/
def TaskManager.create_task (mgr : TaskManager) (id url description
    task_type : String) (now : Nat) : Task × TaskManager :=
  let task : Task :=
    { id := id, url := url, description := description, task_type := task_type
      status := .pending, created_at := now, updated_at := now
      result := none, error := none }
  (task, ⟨dictInsert mgr.tasks task.id task⟩)

/-- TaskManager.get_all_tasks: `list(self.tasks.values())`. -/
def TaskManager.get_all_tasks (mgr : TaskManager) : List Task :=
  mgr.tasks.map Prod.snd

/-- TaskManager.execute_task: returns False when the task is missing or not
PENDING, otherwise marks it RUNNING and returns True (the spawned worker
thread is tracked separately by the transition system). -/
def TaskManager.execute_task (mgr : TaskManager) (task_id : String)
    (now : Nat) : Bool × TaskManager :=
  match mgr.get_task task_id with
  | none => (false, mgr)
  | some task =>
      if task.status = .pending then
        (true, ⟨dictInsert mgr.tasks task_id
                  (task.update_status .running none now)⟩)
      else (false, mgr)

/-- Python `sep in s` for a single-character separator. -/
def strContains (s : String) (c : Char) : Bool :=
  s.data.contains c

/-- Python `s.split(sep)` for a single-character separator, on the
character list. -/
def splitOnChar (sep : Char) : List Char → List (List Char)
  | [] => [[]]
  | c :: rest =>
      let r := splitOnChar sep rest
      if c = sep then [] :: r
      else
        match r with
        | [] => [[c]]
        | g :: gs => (c :: g) :: gs

/-- Python `s.split(sep)` for a single-character separator. -/
def pySplit (s : String) (sep : Char) : List String :=
  (splitOnChar sep s.data).map String.mk

/-- The whitespace characters removed by Python `str.strip()` (ASCII). -/
def pyIsSpace (c : Char) : Bool :=
  c = ' ' || c = '\t' || c = '\n' || c = '\r' || c = '\x0b' || c = '\x0c'

/-- Python `s.strip()`. -/
def pyStrip (s : String) : String :=
  String.mk (((s.data.dropWhile pyIsSpace).reverse.dropWhile pyIsSpace).reverse)

/-- Helper for `split("=", 1)`: split a character list at its first `=`. -/
def splitFirstEqChars : List Char → List Char × List Char
  | [] => ([], [])
  | c :: rest =>
      if c = '=' then ([], rest)
      else
        let r := splitFirstEqChars rest
        (c :: r.1, r.2)

/-- Python `field_data.split("=", 1)` (on an entry containing `=`): split
at the first `=` only. -/
def splitFirstEq (fd : String) : String × String :=
  let r := splitFirstEqChars fd.data
  (String.mk r.1, String.mk r.2)

/-- The form_fill branch's parsing loop (task_manager.py lines 207-212):
pairs are collected only when the description contains a comma; each
comma-separated entry containing `=` is split at its first `=` and both
sides are stripped. -/
def parse_form_data (description : String) : List (String × String) :=
  if strContains description ',' then
    (pySplit description ',').foldl
      (fun m fd =>
        if strContains fd '=' then
          let kv := splitFirstEq fd
          dictInsert m (pyStrip kv.1) (pyStrip kv.2)
        else m) []
  else []

/-- The parsing the specification describes for the form_fill branch
(spec §4.4): the description is a comma-separated list of key=value
entries, each split at its first `=`, entries without `=` skipped — with
no requirement that the description contain a comma.  Used only to compare
against `parse_form_data`. -/
def parse_form_data_spec (description : String) : List (String × String) :=
  (pySplit description ',').foldl
    (fun m fd =>
      if strContains fd '=' then
        let kv := splitFirstEq fd
        dictInsert m (pyStrip kv.1) (pyStrip kv.2)
      else m) []

/-- External capabilities seen by one worker run.  navigate_to_url returns
a Bool; extract_data, fill_form and the AI-processor methods catch their
exceptions internally in the source and always return a value, so they are
total functions here.  `categorize_primary` is the primary_category entry
of `AIProcessor.categorize_content` when present. -/
structure Env where
  navigate_ok : Bool
  extract_data : List (String × String) → List (String × String)
  summarize_text : String → String
  categorize_primary : String → Option String
  extract_key_information : String → String → List String
  fill_form : List (String × String) → Bool

/-- Selector map passed to extract_data by the web_scrape branch. -/
def web_scrape_selectors : List (String × String) :=
  [("main_content", "main, body"), ("title", "h1, title"), ("paragraphs", "p")]

/-- Selector map passed to extract_data by the data_extraction branch. -/
def data_extraction_selectors : List (String × String) :=
  [("main_content", "main, body"), ("title", "h1, title")]

/-- Python `data.get(k, d)`. -/
def dictGetD (m : List (String × String)) (k d : String) : String :=
  (alookup m k).getD d

/-- The error message recorded when navigation fails: the worker raises
`Failed to navigate to URL: <url>` and its except-block stores
`Error executing task: <message>`. -/
def navigate_error (url : String) : String :=
  "Error executing task: " ++ ("Failed to navigate to URL: " ++ url)

/-- Dispatch on task_type (task_manager.py lines 181-270), computing the
result dict of the task together with the list of argument maps passed to
browser.fill_form along the way. -/
def worker_branch (env : Env) (task : Task) :
    List (String × RVal) × List (List (String × String)) :=
  if task.task_type = "web_scrape" then
    let data := env.extract_data web_scrape_selectors
    let title := dictGetD data "title" "No title found"
    match alookup data "main_content" with
    | some mc =>
        if mc = "" then
          ([("title", .s title), ("error", .s "Could not extract main content")], [])
        else
          ([("title", .s title), ("summary", .s (env.summarize_text mc))], [])
    | none =>
        ([("title", .s title), ("error", .s "Could not extract main content")], [])
  else if task.task_type = "form_fill" then
    let form_data := parse_form_data task.description
    if form_data = [] then
      ([("success", .b false),
        ("message", .s "No valid form data found in description")], [])
    else
      let success := env.fill_form form_data
      ([("success", .b success),
        ("message", .s (if success then "Form filled successfully"
                        else "Failed to fill form"))], [form_data])
  else if task.task_type = "data_extraction" then
    let data := env.extract_data data_extraction_selectors
    let title := dictGetD data "title" "No title found"
    let mc := dictGetD data "main_content" ""
    match env.categorize_primary mc with
    | some info_type =>
        ([("title", .s title), ("category", .s info_type),
          ("extracted_information", .l (env.extract_key_information mc info_type))], [])
    | none =>
        ([("title", .s title),
          ("message", .s "Could not determine content category")], [])
  else
    ([("error", .s ("Unknown task type: " ++ task.task_type))], [])

/-- Outcome of one worker run: the updated manager state, whether a browser
instance was acquired (the BrowserAutomation constructor ran), whether
browser.close() was invoked before the worker exited, and the argument maps
passed to browser.fill_form. -/
structure WorkerResult where
  mgr : TaskManager
  acquired : Bool
  closed : Bool
  fillCalls : List (List (String × String))
deriving Repr

/-- TaskManager._task_worker.  When the task exists, a browser instance is
acquired; if navigation fails the explicit raise is caught by the worker's
except-block, which marks the task FAILED with `navigate_error` — without
ever reaching the `browser.close()` call on line 273, which sits inside the
try-block after the branch dispatch.  On the success path the branch result
is stored, close() is invoked (it swallows its own errors and never
raises), and the task is marked COMPLETED. -/
def task_worker (env : Env) (mgr : TaskManager) (task_id : String)
    (now : Nat) : WorkerResult :=
  match mgr.get_task task_id with
  | none => ⟨mgr, false, false, []⟩
  | some task =>
      if env.navigate_ok then
        let br := worker_branch env task
        ⟨⟨dictInsert mgr.tasks task_id
            (({ task with result := some br.1 }).update_status .completed none now)⟩,
         true, true, br.2⟩
      else
        ⟨⟨dictInsert mgr.tasks task_id
            (task.update_status .failed (some (navigate_error task.url)) now)⟩,
         true, false, []⟩

/-- Whole-system state: the registry, the ids of spawned worker threads
that have not yet run, and (ghost, for specification only) the ids in
creation order. -/
structure SysState where
  mgr : TaskManager
  workers : List String
  created : List String

/-- The empty TaskManager built at module load. -/
def initSys : SysState := ⟨⟨[]⟩, [], []⟩

/-- One public operation of the orchestration core, at the granularity at
which the source serializes registry mutations.  `create` requires the
generated uuid to be fresh; `execute` spawns a worker exactly when it
returns True; `work` runs the body of one previously spawned worker
thread. -/
inductive SysStep (s : SysState) : SysState → Prop where
  | create (id url description task_type : String) (now : Nat) (s' : SysState)
      (fresh : s.mgr.get_task id = none)
      (heq : s' = ⟨(s.mgr.create_task id url description task_type now).2,
                   s.workers, s.created ++ [id]⟩) :
      SysStep s s'
  | execute (task_id : String) (now : Nat) (s' : SysState)
      (heq : s' = ⟨(s.mgr.execute_task task_id now).2,
                   if (s.mgr.execute_task task_id now).1 then
                     s.workers ++ [task_id]
                   else s.workers,
                   s.created⟩) :
      SysStep s s'
  | work (task_id : String) (env : Env) (now : Nat) (s' : SysState)
      (mem : task_id ∈ s.workers)
      (heq : s' = ⟨(task_worker env s.mgr task_id now).mgr,
                   s.workers.erase task_id, s.created⟩) :
      SysStep s s'

/-- States reachable from the freshly constructed manager by any sequence
of public operations. -/
def ReachableSys (s : SysState) : Prop :=
  Relation.ReflTransGen SysStep initSys s

/-- Per-task part of the reachability invariant: the stored task's id is
its key, PENDING/RUNNING tasks carry no result and no error, FAILED tasks
carry a non-empty error and no result, COMPLETED tasks carry a result and
no error. -/
def TaskOK (k : String) (t : Task) : Prop :=
  t.id = k ∧
  ((t.status = .pending ∨ t.status = .running) → t.result = none ∧ t.error = none) ∧
  (t.status = .failed → t.result = none ∧ ∃ e, t.error = some e ∧ e ≠ "") ∧
  (t.status = .completed → (∃ r, t.result = some r) ∧ t.error = none)

/-- Reachability invariant of the orchestration core. -/
def Inv (s : SysState) : Prop :=
  (s.mgr.tasks.map Prod.fst).Nodup ∧
  (∀ p ∈ s.mgr.tasks, TaskOK p.1 p.2) ∧
  s.mgr.tasks.map Prod.fst = s.created ∧
  s.workers.Nodup ∧
  (∀ id ∈ s.workers, ∃ t, s.mgr.get_task id = some t ∧ t.status = .running)

/-- The state written back by one worker run on an existing task. -/
def worker_update (env : Env) (task : Task) (now : Nat) : Task :=
  if env.navigate_ok then
    ({ task with result := some (worker_branch env task).1 }).update_status
      .completed none now
  else
    task.update_status .failed (some (navigate_error task.url)) now

/-!
Session registry model (browser_api.py).  `get_browser_session` is a
check-then-act on the module-level dict `browser_sessions` with no lock:

    if session_id not in browser_sessions:
        browser_sessions[session_id] = BrowserAutomation(headless=True)
    return browser_sessions[session_id]

Each call is modelled as up to three atomic micro-operations: the
membership check, the construct-and-insert (only reached when the check
saw the id absent), and the final dict read that produces the return
value.  Browser instances are numbered by a construction counter, so
`constructed` counts how many `BrowserAutomation(...)` constructor runs
have happened.
-/

/-- Shared state of browser_api.py: the `browser_sessions` dict (values are
instance numbers) and the number of constructor runs so far. -/
structure SessState where
  sessions : List (String × Nat)
  constructed : Nat
deriving DecidableEq, Repr

/-- Program counter of one in-flight `get_browser_session` call. -/
inductive SessPC where
  | atCheck
  | atCreate
  | atReturn
  | done
deriving DecidableEq, Repr

/-- Local state of one in-flight `get_browser_session` call. -/
structure SessCall where
  pc : SessPC
  ret : Option Nat
deriving DecidableEq, Repr

/-- One atomic micro-operation of `get_browser_session(sid)`. -/
def get_browser_session_step (st : SessState) (sid : String) (c : SessCall) :
    SessState × SessCall :=
  match c.pc with
  | .atCheck =>
      if (alookup st.sessions sid).isSome then (st, { c with pc := .atReturn })
      else (st, { c with pc := .atCreate })
  | .atCreate =>
      (⟨dictInsert st.sessions sid st.constructed, st.constructed + 1⟩,
       { c with pc := .atReturn })
  | .atReturn => (st, ⟨.done, alookup st.sessions sid⟩)
  | .done => (st, c)

/-- Interleave two concurrent `get_browser_session(sid)` calls under a
schedule: `true` advances the first call by one micro-operation, `false`
the second. -/
def runTwoSessions (sid : String) : SessState → SessCall → SessCall →
    List Bool → SessState × SessCall × SessCall
  | st, c1, c2, [] => (st, c1, c2)
  | st, c1, c2, b :: rest =>
      if b then
        let r := get_browser_session_step st sid c1
        runTwoSessions sid r.1 r.2 c2 rest
      else
        let r := get_browser_session_step st sid c2
        runTwoSessions sid r.1 c1 r.2 rest

/-- A fresh call state. -/
def sessCallInit : SessCall := ⟨.atCheck, none⟩

/-- Two concurrent `get_browser_session("s")` calls on an empty registry,
interleaved so that both membership checks run before either
construct-and-insert (schedule: check₁ check₂ create₁ create₂ ret₁ ret₂). -/
def sessRace : SessState × SessCall × SessCall :=
  runTwoSessions "s" ⟨[], 0⟩ sessCallInit sessCallInit
    [true, false, true, false, true, false]

/-- Stub capability environment: navigation succeeds, extraction returns
nothing, summaries echo, no category, form fill succeeds. -/
def envStub : Env :=
  { navigate_ok := true
    extract_data := fun _ => []
    summarize_text := fun s => s
    categorize_primary := fun _ => none
    extract_key_information := fun _ _ => []
    fill_form := fun _ => true }

/-- Stub environment whose navigate operation reports failure. -/
def envNavFail : Env := { envStub with navigate_ok := false }

/-- Concrete task as created: unknown type "bogus". -/
def taskA : Task :=
  { id := "t1", url := "https://example.test", description := "d",
    task_type := "bogus", status := .pending, created_at := 1, updated_at := 1,
    result := none, error := none }

/-- taskA after execute_task marked it RUNNING. -/
def taskB : Task := { taskA with status := .running, updated_at := 2 }

/-- taskB after the worker completed it (unknown-type result). -/
def taskC : Task :=
  { taskB with
    status := .completed
    updated_at := 3
    result := some [("error", .s "Unknown task type: bogus")] }

/-- State after creating taskA in the fresh manager. -/
def sysA : SysState :=
  ⟨(initSys.mgr.create_task "t1" "https://example.test" "d" "bogus" 1).2,
   initSys.workers, initSys.created ++ ["t1"]⟩

/-- State after execute_task "t1" succeeded (worker spawned). -/
def sysB : SysState :=
  ⟨(sysA.mgr.execute_task "t1" 2).2,
   if (sysA.mgr.execute_task "t1" 2).1 then sysA.workers ++ ["t1"]
   else sysA.workers,
   sysA.created⟩

/-- State after the spawned worker ran under envStub. -/
def sysC : SysState :=
  ⟨(task_worker envStub sysB.mgr "t1" 3).mgr, sysB.workers.erase "t1",
   sysB.created⟩

/-- A running form_fill task whose description holds two key=value pairs. -/
def taskF : Task :=
  { id := "t2", url := "https://example.test",
    description := "name=Alice,email=alice@example.com",
    task_type := "form_fill", status := .running, created_at := 1,
    updated_at := 1, result := none, error := none }

/-- Manager holding taskF. -/
def mgrF : TaskManager := ⟨[("t2", taskF)]⟩

/-- A running form_fill task whose description is a single key=value entry
with no comma. -/
def taskFnc : Task := { taskF with description := "name=Alice" }

/-- Manager holding taskFnc. -/
def mgrFnc : TaskManager := ⟨[("t2", taskFnc)]⟩

theorem alookup_dictInsert_self {α : Type} (m : List (String × α)) (k : String)
    (v : α) : alookup (dictInsert m k v) k = some v := by
  induction m with
  | nil => simp [dictInsert, alookup]
  | cons p rest ih =>
      obtain ⟨k', v'⟩ := p
      by_cases h : k' = k
      · simp [dictInsert, h, alookup]
      · simp [dictInsert, h, alookup, ih]

theorem alookup_dictInsert_ne {α : Type} (m : List (String × α)) (k k' : String)
    (v : α) (h : k' ≠ k) :
    alookup (dictInsert m k v) k' = alookup m k' := by
  induction m with
  | nil => simp [dictInsert, alookup, Ne.symm h]
  | cons p rest ih =>
      obtain ⟨k0, v0⟩ := p
      by_cases h0 : k0 = k
      · subst h0
        simp [dictInsert, alookup, Ne.symm h]
      · simp only [dictInsert, if_neg h0, alookup]
        by_cases h1 : k0 = k'
        · simp [h1]
        · simp [h1, ih]

theorem mem_dictInsert {α : Type} {m : List (String × α)} {k : String} {v : α}
    {p : String × α} (h : p ∈ dictInsert m k v) : p = (k, v) ∨ p ∈ m := by
  induction m with
  | nil => simpa [dictInsert] using h
  | cons q rest ih =>
      obtain ⟨k0, v0⟩ := q
      by_cases h0 : k0 = k
      · simp only [dictInsert, if_pos h0, List.mem_cons] at h
        rcases h with h | h
        · exact Or.inl h
        · exact Or.inr (List.mem_cons_of_mem _ h)
      · simp only [dictInsert, if_neg h0, List.mem_cons] at h
        rcases h with h | h
        · exact Or.inr (by simp [h])
        · rcases ih h with h' | h'
          · exact Or.inl h'
          · exact Or.inr (List.mem_cons_of_mem _ h')

theorem keys_dictInsert_of_none {α : Type} {m : List (String × α)} {k : String}
    (v : α) (h : alookup m k = none) :
    (dictInsert m k v).map Prod.fst = m.map Prod.fst ++ [k] := by
  induction m with
  | nil => simp [dictInsert]
  | cons p rest ih =>
      obtain ⟨k0, v0⟩ := p
      by_cases h0 : k0 = k
      · simp [alookup, h0] at h
      · simp only [alookup, if_neg h0] at h
        simp [dictInsert, h0, ih h]

theorem keys_dictInsert_of_some {α : Type} {m : List (String × α)} {k : String}
    {v0 : α} (v : α) (h : alookup m k = some v0) :
    (dictInsert m k v).map Prod.fst = m.map Prod.fst := by
  induction m with
  | nil => simp [alookup] at h
  | cons p rest ih =>
      obtain ⟨k0, v0'⟩ := p
      by_cases h0 : k0 = k
      · simp [dictInsert, h0]
      · simp only [alookup, if_neg h0] at h
        simp [dictInsert, h0, ih h]

theorem alookup_mem {α : Type} {m : List (String × α)} {k : String} {v : α}
    (h : alookup m k = some v) : (k, v) ∈ m := by
  induction m with
  | nil => simp [alookup] at h
  | cons p rest ih =>
      obtain ⟨k0, v0⟩ := p
      by_cases h0 : k0 = k
      · subst h0
        simp [alookup] at h
        simp [h]
      · simp only [alookup, if_neg h0] at h
        exact List.mem_cons_of_mem _ (ih h)

theorem not_mem_keys_of_alookup_none {α : Type} {m : List (String × α)}
    {k : String} (h : alookup m k = none) : k ∉ m.map Prod.fst := by
  induction m with
  | nil => simp
  | cons p rest ih =>
      obtain ⟨k0, v0⟩ := p
      by_cases h0 : k0 = k
      · simp [alookup, h0] at h
      · simp only [alookup, if_neg h0] at h
        simp [Ne.symm h0, ih h]

theorem alookup_none_of_not_mem_keys {α : Type} {m : List (String × α)}
    {k : String} (h : k ∉ m.map Prod.fst) : alookup m k = none := by
  induction m with
  | nil => rfl
  | cons p rest ih =>
      obtain ⟨k0, v0⟩ := p
      simp only [List.map_cons, List.mem_cons] at h
      push_neg at h
      simp [alookup, Ne.symm h.1, ih h.2]

theorem navigate_error_ne_empty (url : String) : navigate_error url ≠ "" := by
  intro h
  have hlen := congrArg String.length h
  rw [navigate_error, String.length_append, String.length_append] at hlen
  have h1 : ("Error executing task: " : String).length = 22 := rfl
  have h2 : ("Failed to navigate to URL: " : String).length = 27 := rfl
  have h3 : ("" : String).length = 0 := rfl
  rw [h1, h2, h3] at hlen
  omega

theorem inv_init : Inv initSys := by
  refine ⟨List.nodup_nil, ?_, rfl, List.nodup_nil, ?_⟩
  · intro p hp
    cases hp
  · intro id hid
    cases hid

theorem task_worker_mgr_eq {mgr : TaskManager} {task_id : String} {task : Task}
    (env : Env) (now : Nat) (hget : mgr.get_task task_id = some task) :
    (task_worker env mgr task_id now).mgr =
      ⟨dictInsert mgr.tasks task_id (worker_update env task now)⟩ := by
  by_cases hnav : env.navigate_ok <;>
    simp [task_worker, hget, hnav, worker_update]

theorem worker_update_ok {env : Env} {task : Task} {now : Nat}
    {task_id : String} (htok : TaskOK task_id task)
    (hrun : task.status = .running) :
    TaskOK task_id (worker_update env task now) := by
  have hre : task.result = none ∧ task.error = none := htok.2.1 (Or.inr hrun)
  by_cases hnav : env.navigate_ok
  · refine ⟨?_, ?_, ?_, ?_⟩
    · simpa [worker_update, hnav, Task.update_status] using htok.1
    · intro hst
      simp [worker_update, hnav, Task.update_status] at hst
    · intro hst
      simp [worker_update, hnav, Task.update_status] at hst
    · intro _
      refine ⟨⟨(worker_branch env task).1, ?_⟩, ?_⟩
      · simp [worker_update, hnav, Task.update_status]
      · simp [worker_update, hnav, Task.update_status, hre.2]
  · refine ⟨?_, ?_, ?_, ?_⟩
    · simpa [worker_update, hnav, Task.update_status] using htok.1
    · intro hst
      simp [worker_update, hnav, Task.update_status] at hst
    · intro _
      refine ⟨?_, navigate_error task.url, ?_, navigate_error_ne_empty task.url⟩
      · simp [worker_update, hnav, Task.update_status, hre.1]
      · simp [worker_update, hnav, Task.update_status,
          navigate_error_ne_empty task.url]
    · intro hst
      simp [worker_update, hnav, Task.update_status] at hst

theorem inv_step {s s' : SysState} (hinv : Inv s) (hstep : SysStep s s') :
    Inv s' := by
  obtain ⟨hkeys, htasks, hcre, hwnd, hwork⟩ := hinv
  cases hstep with
  | create id url description task_type now s' fresh heq =>
      subst heq
      have hfresh : alookup s.mgr.tasks id = none := fresh
      have hknew := keys_dictInsert_of_none (m := s.mgr.tasks) (k := id)
        ({ id := id, url := url, description := description,
           task_type := task_type, status := .pending, created_at := now,
           updated_at := now, result := none, error := none } : Task) hfresh
      refine ⟨?_, ?_, ?_, hwnd, ?_⟩
      · show ((dictInsert s.mgr.tasks id _).map Prod.fst).Nodup
        rw [hknew, List.nodup_append]
        refine ⟨hkeys, List.nodup_singleton id, ?_⟩
        intro a ha ha'
        have : a = id := by simpa using ha'
        subst this
        exact not_mem_keys_of_alookup_none hfresh ha
      · intro p hp
        rcases mem_dictInsert hp with hp' | hp'
        · subst hp'
          refine ⟨rfl, ?_, ?_, ?_⟩
          · intro _
            exact ⟨rfl, rfl⟩
          · intro hst
            simp at hst
          · intro hst
            simp at hst
        · exact htasks p hp'
      · show (dictInsert s.mgr.tasks id _).map Prod.fst = s.created ++ [id]
        rw [hknew, hcre]
      · intro wid hwid
        obtain ⟨t, hget, hrun⟩ := hwork wid hwid
        have hne : wid ≠ id := by
          intro hh
          rw [hh, TaskManager.get_task, hfresh] at hget
          exact Option.noConfusion hget
        refine ⟨t, ?_, hrun⟩
        show alookup (dictInsert s.mgr.tasks id _) wid = some t
        rw [alookup_dictInsert_ne _ _ _ _ hne]
        exact hget
  | execute task_id now s' heq =>
      subst heq
      rcases hget : s.mgr.get_task task_id with _ | task
      · simp only [TaskManager.execute_task, hget]
        exact ⟨hkeys, htasks, hcre, hwnd, hwork⟩
      · by_cases hpend : task.status = .pending
        · have hmemw : task_id ∉ s.workers := by
            intro hmem
            obtain ⟨t, hget', hrun⟩ := hwork task_id hmem
            rw [hget] at hget'
            cases hget'
            rw [hpend] at hrun
            exact TaskStatus.noConfusion hrun
          have htok : TaskOK task_id task :=
            htasks (task_id, task) (alookup_mem hget)
          have hre : task.result = none ∧ task.error = none :=
            htok.2.1 (Or.inl hpend)
          simp only [TaskManager.execute_task, hget, if_pos hpend]
          refine ⟨?_, ?_, ?_, ?_, ?_⟩
          · show ((dictInsert s.mgr.tasks task_id _).map Prod.fst).Nodup
            rw [keys_dictInsert_of_some _ hget]
            exact hkeys
          · intro p hp
            rcases mem_dictInsert hp with hp' | hp'
            · subst hp'
              refine ⟨?_, ?_, ?_, ?_⟩
              · simpa [Task.update_status] using htok.1
              · intro _
                constructor <;> simp [Task.update_status, hre.1, hre.2]
              · intro hst
                simp [Task.update_status] at hst
              · intro hst
                simp [Task.update_status] at hst
            · exact htasks p hp'
          · show (dictInsert s.mgr.tasks task_id _).map Prod.fst = s.created
            rw [keys_dictInsert_of_some _ hget]
            exact hcre
          · refine List.Nodup.append hwnd (List.nodup_singleton _) ?_
            intro a ha ha'
            have : a = task_id := by simpa using ha'
            subst this
            exact hmemw ha
          · intro wid hwid
            rcases List.mem_append.mp hwid with hw | hw
            · obtain ⟨t, hget', hrun⟩ := hwork wid hw
              have hne : wid ≠ task_id := fun hh => hmemw (hh ▸ hw)
              refine ⟨t, ?_, hrun⟩
              show alookup (dictInsert s.mgr.tasks task_id _) wid = some t
              rw [alookup_dictInsert_ne _ _ _ _ hne]
              exact hget'
            · have hw' : wid = task_id := by simpa using hw
              subst hw'
              refine ⟨task.update_status .running none now, ?_, ?_⟩
              · show alookup (dictInsert s.mgr.tasks wid _) wid = _
                rw [alookup_dictInsert_self]
              · simp [Task.update_status]
        · simp only [TaskManager.execute_task, hget, if_neg hpend]
          exact ⟨hkeys, htasks, hcre, hwnd, hwork⟩
  | work task_id env now s' mem heq =>
      subst heq
      obtain ⟨task, hget, hrun⟩ := hwork task_id mem
      have htok : TaskOK task_id task := htasks (task_id, task) (alookup_mem hget)
      rw [task_worker_mgr_eq env now hget]
      refine ⟨?_, ?_, ?_, List.Nodup.erase _ hwnd, ?_⟩
      · show ((dictInsert s.mgr.tasks task_id _).map Prod.fst).Nodup
        rw [keys_dictInsert_of_some _ hget]
        exact hkeys
      · intro p hp
        rcases mem_dictInsert hp with hp' | hp'
        · subst hp'
          exact worker_update_ok htok hrun
        · exact htasks p hp'
      · show (dictInsert s.mgr.tasks task_id _).map Prod.fst = s.created
        rw [keys_dictInsert_of_some _ hget]
        exact hcre
      · intro wid hwid
        have hne : wid ≠ task_id := (List.Nodup.mem_erase_iff hwnd |>.mp hwid).1
        have hw : wid ∈ s.workers := (List.Nodup.mem_erase_iff hwnd |>.mp hwid).2
        obtain ⟨t, hget', hrun'⟩ := hwork wid hw
        refine ⟨t, ?_, hrun'⟩
        show alookup (dictInsert s.mgr.tasks task_id _) wid = some t
        rw [alookup_dictInsert_ne _ _ _ _ hne]
        exact hget'

theorem inv_reachable {s : SysState} (h : ReachableSys s) : Inv s := by
  induction h with
  | refl => exact inv_init
  | tail _ hstep ih => exact inv_step ih hstep

theorem worker_update_status (env : Env) (task : Task) (now : Nat) :
    (worker_update env task now).status = .completed ∨
    (worker_update env task now).status = .failed := by
  by_cases hnav : env.navigate_ok <;>
    simp [worker_update, hnav, Task.update_status]

theorem worker_update_fields (env : Env) (task : Task) (now : Nat) :
    (worker_update env task now).id = task.id ∧
    (worker_update env task now).url = task.url ∧
    (worker_update env task now).description = task.description ∧
    (worker_update env task now).task_type = task.task_type ∧
    (worker_update env task now).created_at = task.created_at := by
  by_cases hnav : env.navigate_ok <;>
    simp [worker_update, hnav, Task.update_status]

/-- What one public operation can do to the binding of a fixed task id:
leave it unchanged, create it PENDING, move it PENDING to RUNNING (a
successful execute_task), or apply one worker run to a RUNNING task. -/
theorem step_lookup_cases {s s' : SysState} (hinv : Inv s)
    (hstep : SysStep s s') (id : String) :
    s'.mgr.get_task id = s.mgr.get_task id ∨
    (∃ url description task_type now, s.mgr.get_task id = none ∧
       s'.mgr.get_task id =
         some { id := id, url := url, description := description,
                task_type := task_type, status := .pending, created_at := now,
                updated_at := now, result := none, error := none }) ∨
    (∃ t now, s.mgr.get_task id = some t ∧ t.status = .pending ∧
       s'.mgr.get_task id = some (t.update_status .running none now)) ∨
    (∃ t env now, s.mgr.get_task id = some t ∧ t.status = .running ∧
       s'.mgr.get_task id = some (worker_update env t now)) := by
  cases hstep with
  | create cid url description task_type now s' fresh heq =>
      subst heq
      by_cases hid : id = cid
      · subst hid
        refine Or.inr (Or.inl ⟨url, description, task_type, now, fresh, ?_⟩)
        show alookup (dictInsert s.mgr.tasks id _) id = _
        rw [alookup_dictInsert_self]
      · refine Or.inl ?_
        show alookup (dictInsert s.mgr.tasks cid _) id = _
        rw [alookup_dictInsert_ne _ _ _ _ hid]
        rfl
  | execute tid now s' heq =>
      subst heq
      have hget0 : (s.mgr.execute_task tid now).2.get_task id
          = TaskManager.get_task (s.mgr.execute_task tid now).2 id := rfl
      rcases hget : s.mgr.get_task tid with _ | task
      · refine Or.inl ?_
        show TaskManager.get_task (s.mgr.execute_task tid now).2 id = _
        rw [TaskManager.execute_task, hget]
      · by_cases hpend : task.status = .pending
        · by_cases hid : id = tid
          · subst hid
            refine Or.inr (Or.inr (Or.inl ⟨task, now, hget, hpend, ?_⟩))
            show TaskManager.get_task (s.mgr.execute_task id now).2 id = _
            rw [TaskManager.execute_task, hget]
            simp only [if_pos hpend]
            show alookup (dictInsert s.mgr.tasks id _) id = _
            rw [alookup_dictInsert_self]
          · refine Or.inl ?_
            show TaskManager.get_task (s.mgr.execute_task tid now).2 id = _
            rw [TaskManager.execute_task, hget]
            simp only [if_pos hpend]
            show alookup (dictInsert s.mgr.tasks tid _) id = _
            rw [alookup_dictInsert_ne _ _ _ _ hid]
            rfl
        · refine Or.inl ?_
          show TaskManager.get_task (s.mgr.execute_task tid now).2 id = _
          rw [TaskManager.execute_task, hget]
          simp only [if_neg hpend]
  | work tid env now s' mem heq =>
      subst heq
      rcases hget : s.mgr.get_task tid with _ | task
      · obtain ⟨t0, hget0, _⟩ := hinv.2.2.2.2 tid mem
        rw [hget] at hget0
        exact Option.noConfusion hget0
      · obtain ⟨t0, hget0, hrun⟩ := hinv.2.2.2.2 tid mem
        rw [hget] at hget0
        cases hget0
        have hmgr := task_worker_mgr_eq env now hget
        by_cases hid : id = tid
        · subst hid
          refine Or.inr (Or.inr (Or.inr ⟨task, env, now, hget, hrun, ?_⟩))
          show TaskManager.get_task (task_worker env s.mgr id now).mgr id = _
          rw [hmgr]
          show alookup (dictInsert s.mgr.tasks id _) id = _
          rw [alookup_dictInsert_self]
        · refine Or.inl ?_
          show TaskManager.get_task (task_worker env s.mgr tid now).mgr id = _
          rw [hmgr]
          show alookup (dictInsert s.mgr.tasks tid _) id = _
          rw [alookup_dictInsert_ne _ _ _ _ hid]
          rfl

/-- With the invariant, the ids listed by get_all_tasks are exactly the
keys of the task map. -/
theorem get_all_tasks_ids {s : SysState} (hinv : Inv s) :
    s.mgr.get_all_tasks.map Task.id = s.mgr.tasks.map Prod.fst := by
  rw [TaskManager.get_all_tasks, List.map_map]
  apply List.map_congr_left
  intro p hp
  exact (hinv.2.1 p hp).1

theorem reach_sysA : ReachableSys sysA :=
  Relation.ReflTransGen.single
    (SysStep.create "t1" "https://example.test" "d" "bogus" 1 sysA rfl rfl)

theorem reach_sysB : ReachableSys sysB :=
  Relation.ReflTransGen.tail reach_sysA (SysStep.execute "t1" 2 sysB rfl)

theorem reach_sysC : ReachableSys sysC :=
  Relation.ReflTransGen.tail reach_sysB
    (SysStep.work "t1" envStub 3 sysC (by decide) rfl)

/-- C1: under any sequence of the public operations (create_task,
execute_task and worker runs), a task's status only ever stays put or
advances along Pending → Running → (Completed | Failed): no operation moves
a task out of Completed or Failed, or from Running back to Pending, and a
task appears with status Pending.  Hence the sequence of statuses a task
takes on is a prefix of [Pending, Running, Completed] or of
[Pending, Running, Failed]. -/
theorem c1_status_monotone (s s' : SysState) (hreach : ReachableSys s)
    (hstep : SysStep s s') (id : String) :
    (∀ t t', s.mgr.get_task id = some t → s'.mgr.get_task id = some t' →
       (t.status = t'.status ∨
        (t.status = .pending ∧ t'.status = .running) ∨
        (t.status = .running ∧
          (t'.status = .completed ∨ t'.status = .failed)))) ∧
    (s.mgr.get_task id = none →
       ∀ t', s'.mgr.get_task id = some t' → t'.status = .pending) := by
  have hinv := inv_reachable hreach
  have hcases := step_lookup_cases hinv hstep id
  constructor
  · intro t t' hget hget'
    rcases hcases with hc | ⟨url, d, ty, n, hnone, _⟩ |
      ⟨t0, n, hget0, hpend, hnew⟩ | ⟨t0, env, n, hget0, hrun, hnew⟩
    · rw [hc, hget] at hget'
      cases hget'
      exact Or.inl rfl
    · rw [hget] at hnone
      exact Option.noConfusion hnone
    · rw [hget0] at hget
      cases hget
      rw [hnew] at hget'
      cases hget'
      exact Or.inr (Or.inl ⟨hpend, by simp [Task.update_status]⟩)
    · rw [hget0] at hget
      cases hget
      rw [hnew] at hget'
      cases hget'
      exact Or.inr (Or.inr ⟨hrun, worker_update_status _ _ _⟩)
  · intro hnone t' hget'
    rcases hcases with hc | ⟨url, d, ty, n, _, hnew⟩ |
      ⟨t0, n, hget0, _, _⟩ | ⟨t0, env, n, hget0, _, _⟩
    · rw [hc, hnone] at hget'
      exact Option.noConfusion hget'
    · rw [hnew] at hget'
      cases hget'
      rfl
    · rw [hget0] at hnone
      exact Option.noConfusion hnone
    · rw [hget0] at hnone
      exact Option.noConfusion hnone

/-- Witness for C1 at a concrete step: executing the pending task "t1"
takes its status along an allowed edge. -/
theorem c1_witness :
    taskA.status = taskB.status ∨
    (taskA.status = .pending ∧ taskB.status = .running) ∨
    (taskA.status = .running ∧
      (taskB.status = .completed ∨ taskB.status = .failed)) :=
  (c1_status_monotone sysA sysB reach_sysA
    (SysStep.execute "t1" 2 sysB rfl) "t1").1 taskA taskB (by decide) (by decide)

/-- C2 (amended): when navigation reports failure the worker marks the task
Failed, and its error string is exactly
"Error executing task: Failed to navigate to URL: [url]" — the raised
navigation message wrapped by the worker's except-block prefix. -/
theorem c2_navigation_failure_error (env : Env) (mgr : TaskManager)
    (task_id : String) (now : Nat) (t : Task)
    (hget : mgr.get_task task_id = some t)
    (hnav : env.navigate_ok = false) :
    (task_worker env mgr task_id now).mgr.get_task task_id =
      some { t with
        status := .failed
        error := some ("Error executing task: " ++
                       ("Failed to navigate to URL: " ++ t.url))
        updated_at := now } := by
  rw [show (task_worker env mgr task_id now).mgr.get_task task_id
        = TaskManager.get_task (task_worker env mgr task_id now).mgr task_id
      from rfl, task_worker_mgr_eq env now hget]
  show alookup (dictInsert mgr.tasks task_id (worker_update env t now))
    task_id = _
  rw [alookup_dictInsert_self]
  have hupd : worker_update env t now =
      { t with
        status := .failed
        error := some ("Error executing task: " ++
                       ("Failed to navigate to URL: " ++ t.url))
        updated_at := now } := by
    have hne : "Error executing task: " ++
        ("Failed to navigate to URL: " ++ t.url) ≠ "" :=
      navigate_error_ne_empty t.url
    simp [worker_update, hnav, Task.update_status, navigate_error, hne]
  rw [hupd]

/-- Witness for C2's amended statement at a concrete failing navigation. -/
theorem c2_witness :
    (task_worker envNavFail sysB.mgr "t1" 3).mgr.get_task "t1" =
      some { taskB with
        status := .failed
        error := some ("Error executing task: " ++
                       ("Failed to navigate to URL: " ++ taskB.url))
        updated_at := 3 } :=
  c2_navigation_failure_error envNavFail sysB.mgr "t1" 3 taskB (by decide) rfl

/-- C2 counterexample: on the concrete failing navigation of
https://example.test the stored error is the wrapped string, not the bare
"Failed to navigate to URL: https://example.test" the claim asserts. -/
theorem c2_counterexample :
    ((task_worker envNavFail sysB.mgr "t1" 3).mgr.get_task "t1").map
        Task.status = some TaskStatus.failed ∧
    ((task_worker envNavFail sysB.mgr "t1" 3).mgr.get_task "t1").map
        Task.error =
      some (some
        "Error executing task: Failed to navigate to URL: https://example.test") ∧
    ((task_worker envNavFail sysB.mgr "t1" 3).mgr.get_task "t1").map
        Task.error ≠
      some (some "Failed to navigate to URL: https://example.test") := by
  decide

/-- C3: on the navigation-failure path the worker body acquires a browser
instance but exits without ever invoking its close operation —
browser.close() (line 273) sits inside the try-block after the branch
dispatch and is skipped when the navigation exception is raised, so the
claim that close runs on every exit path fails on this input. -/
theorem c3_close_skipped_on_navigation_failure :
    (task_worker envNavFail sysB.mgr "t1" 3).acquired = true ∧
    (task_worker envNavFail sysB.mgr "t1" 3).closed = false := by
  decide

/-- C4: execute_task returns false and leaves the whole manager state
unchanged when the id is unknown or the task is not Pending; on a Pending
task it returns true, moves exactly that task to Running, and leaves every
other binding unchanged. -/
theorem c4_execute_task_spec (mgr : TaskManager) (task_id : String)
    (now : Nat) :
    (mgr.get_task task_id = none →
       mgr.execute_task task_id now = (false, mgr)) ∧
    (∀ t, mgr.get_task task_id = some t → t.status ≠ .pending →
       mgr.execute_task task_id now = (false, mgr)) ∧
    (∀ t, mgr.get_task task_id = some t → t.status = .pending →
       (mgr.execute_task task_id now).1 = true ∧
       (mgr.execute_task task_id now).2.get_task task_id =
         some { t with status := .running, updated_at := now } ∧
       (∀ id', id' ≠ task_id →
          (mgr.execute_task task_id now).2.get_task id' =
            mgr.get_task id')) := by
  refine ⟨?_, ?_, ?_⟩
  · intro h
    rw [TaskManager.execute_task, h]
  · intro t h hne
    rw [TaskManager.execute_task, h]
    simp [hne]
  · intro t h hp
    refine ⟨?_, ?_, ?_⟩
    · rw [TaskManager.execute_task, h]
      simp [hp]
    · show TaskManager.get_task (mgr.execute_task task_id now).2 task_id = _
      rw [TaskManager.execute_task, h]
      simp only [if_pos hp]
      show alookup (dictInsert mgr.tasks task_id _) task_id = _
      rw [alookup_dictInsert_self]
      rfl
    · intro id' hne
      show TaskManager.get_task (mgr.execute_task task_id now).2 id' = _
      rw [TaskManager.execute_task, h]
      simp only [if_pos hp]
      show alookup (dictInsert mgr.tasks task_id _) id' = _
      rw [alookup_dictInsert_ne _ _ _ _ hne]
      rfl

/-- Witness for C4 on the concrete pending task "t1". -/
theorem c4_witness :
    (sysA.mgr.execute_task "t1" 2).1 = true ∧
    (sysA.mgr.execute_task "t1" 2).2.get_task "t1" =
      some { taskA with status := .running, updated_at := 2 } :=
  ⟨((c4_execute_task_spec sysA.mgr "t1" 2).2.2 taskA (by decide) rfl).1,
   ((c4_execute_task_spec sysA.mgr "t1" 2).2.2 taskA (by decide) rfl).2.1⟩

/-- C5: in every reachable state, a Failed task carries a non-empty error
string and no result, a Completed task carries a result and no error, and
no task ever has both result and error populated. -/
theorem c5_failed_completed_payloads (s : SysState)
    (hreach : ReachableSys s) (id : String) (t : Task)
    (hget : s.mgr.get_task id = some t) :
    (t.status = .failed →
       (∃ e, t.error = some e ∧ e ≠ "") ∧ t.result = none) ∧
    (t.status = .completed → t.result ≠ none ∧ t.error = none) ∧
    ¬(t.result ≠ none ∧ t.error ≠ none) := by
  have htok : TaskOK id t :=
    (inv_reachable hreach).2.1 (id, t) (alookup_mem hget)
  refine ⟨?_, ?_, ?_⟩
  · intro hf
    obtain ⟨hr, e, he, hne⟩ := htok.2.2.1 hf
    exact ⟨⟨e, he, hne⟩, hr⟩
  · intro hc
    obtain ⟨⟨r, hr⟩, he⟩ := htok.2.2.2 hc
    exact ⟨by simp [hr], he⟩
  · rintro ⟨hr, he⟩
    cases hstatus : t.status with
    | pending => exact hr (htok.2.1 (Or.inl hstatus)).1
    | running => exact hr (htok.2.1 (Or.inr hstatus)).1
    | failed => exact hr (htok.2.2.1 hstatus).1
    | completed => exact he (htok.2.2.2 hstatus).2

/-- Witness for C5 on the concrete completed task "t1". -/
theorem c5_witness : taskC.result ≠ none ∧ taskC.error = none :=
  (c5_failed_completed_payloads sysC reach_sysC "t1" taskC (by decide)).2.1 rfl

/-- C6 (amended): the form_fill branch collects key=value pairs only when
the description contains at least one comma (a comma-free description
yields no pairs, even a lone key=value entry); when it does contain a
comma the parse is exactly the comma-separated split the claim describes,
a non-empty parse is passed to the capability's fill operation, an empty
parse completes the task with the no-valid-form-data result, and the
claim's two-pair example parses to exactly its expected map. -/
theorem c6_form_fill_behavior (env : Env) (mgr : TaskManager)
    (task_id : String) (now : Nat) (t : Task)
    (hget : mgr.get_task task_id = some t)
    (hty : t.task_type = "form_fill") (hnav : env.navigate_ok = true) :
    (strContains t.description ',' = false →
       parse_form_data t.description = []) ∧
    (strContains t.description ',' = true →
       parse_form_data t.description = parse_form_data_spec t.description) ∧
    (parse_form_data t.description ≠ [] →
       (task_worker env mgr task_id now).fillCalls =
         [parse_form_data t.description]) ∧
    (parse_form_data t.description = [] →
       (task_worker env mgr task_id now).fillCalls = [] ∧
       (task_worker env mgr task_id now).mgr.get_task task_id =
         some { t with
           result := some [("success", RVal.b false),
             ("message", RVal.s "No valid form data found in description")]
           status := .completed
           updated_at := now }) ∧
    parse_form_data "name=Alice,email=alice@example.com" =
      [("name", "Alice"), ("email", "alice@example.com")] := by
  refine ⟨?_, ?_, ?_, ?_, by decide⟩
  · intro h
    rw [parse_form_data, h]
    rfl
  · intro h
    rw [parse_form_data, h, parse_form_data_spec]
    rfl
  · intro hne
    simp [task_worker, hget, hnav, worker_branch, hty, hne]
  · intro hz
    constructor
    · simp [task_worker, hget, hnav, worker_branch, hty, hz]
    · rw [show (task_worker env mgr task_id now).mgr.get_task task_id
            = TaskManager.get_task (task_worker env mgr task_id now).mgr
                task_id from rfl,
          task_worker_mgr_eq env now hget]
      show alookup (dictInsert mgr.tasks task_id (worker_update env t now))
        task_id = _
      rw [alookup_dictInsert_self]
      have hupd : worker_update env t now =
          { t with
            result := some [("success", RVal.b false),
              ("message", RVal.s "No valid form data found in description")]
            status := .completed
            updated_at := now } := by
        simp [worker_update, hnav, worker_branch, hty, hz, Task.update_status]
      rw [hupd]

/-- Witness for C6's amended statement: the two-pair description is parsed
and its map is handed to the fill capability. -/
theorem c6_witness :
    (task_worker envStub mgrF "t2" 5).fillCalls =
      [[("name", "Alice"), ("email", "alice@example.com")]] := by
  rw [(c6_form_fill_behavior envStub mgrF "t2" 5 taskF (by decide) rfl
        rfl).2.2.1 (by decide)]
  decide

/-- C6 counterexample: for the comma-free description "name=Alice" the
claim's own parsing finds the pair ("name", "Alice"), yet the code finds
no pairs, never calls the fill capability, and completes the task with the
no-valid-form-data result. -/
theorem c6_counterexample :
    parse_form_data_spec "name=Alice" = [("name", "Alice")] ∧
    parse_form_data "name=Alice" = [] ∧
    (task_worker envStub mgrFnc "t2" 5).fillCalls = [] ∧
    ((task_worker envStub mgrFnc "t2" 5).mgr.get_task "t2").map Task.result =
      some (some [("success", RVal.b false),
        ("message", RVal.s "No valid form data found in description")]) := by
  decide

/-- C7: two concurrent get_browser_session calls for the same unseen id,
interleaved check/check/create/create, construct two browser instances
(the construction counter reaches 2), the session map retains only the
second, and both calls return the second instance — the first instance is
orphaned, refuting the exactly-one-construction claim. -/
theorem c7_concurrent_create_constructs_two :
    sessRace.1.constructed = 2 ∧
    alookup sessRace.1.sessions "s" = some 1 ∧
    sessRace.2.1.ret = some 1 ∧
    sessRace.2.2.ret = some 1 := by
  decide

/-- C8: a task whose type is none of web_scrape, form_fill or
data_extraction and whose navigation succeeds is completed (never failed)
with result containing exactly the unknown-task-type message. -/
theorem c8_unknown_type_completed (env : Env) (mgr : TaskManager)
    (task_id : String) (now : Nat) (t : Task)
    (hget : mgr.get_task task_id = some t)
    (hty : t.task_type ∉ ["web_scrape", "form_fill", "data_extraction"])
    (hnav : env.navigate_ok = true) :
    (task_worker env mgr task_id now).mgr.get_task task_id =
      some { t with
        result := some [("error",
          RVal.s ("Unknown task type: " ++ t.task_type))]
        status := .completed
        updated_at := now } := by
  have h1 : t.task_type ≠ "web_scrape" := fun h => hty (by simp [h])
  have h2 : t.task_type ≠ "form_fill" := fun h => hty (by simp [h])
  have h3 : t.task_type ≠ "data_extraction" := fun h => hty (by simp [h])
  rw [show (task_worker env mgr task_id now).mgr.get_task task_id
        = TaskManager.get_task (task_worker env mgr task_id now).mgr task_id
      from rfl, task_worker_mgr_eq env now hget]
  show alookup (dictInsert mgr.tasks task_id (worker_update env t now))
    task_id = _
  rw [alookup_dictInsert_self]
  have hupd : worker_update env t now =
      { t with
        result := some [("error",
          RVal.s ("Unknown task type: " ++ t.task_type))]
        status := .completed
        updated_at := now } := by
    simp [worker_update, hnav, worker_branch, h1, h2, h3, Task.update_status]
  rw [hupd]

/-- Witness for C8 on the concrete "bogus"-typed task. -/
theorem c8_witness :
    (task_worker envStub sysB.mgr "t1" 3).mgr.get_task "t1" =
      some { taskB with
        result := some [("error",
          RVal.s ("Unknown task type: " ++ taskB.task_type))]
        status := .completed
        updated_at := 3 } :=
  c8_unknown_type_completed envStub sysB.mgr "t1" 3 taskB (by decide)
    (by decide) rfl

/-- C9: in every reachable state, get_all_tasks lists exactly one entry per
task ever created, without duplicates, in the insertion order of
create_task (the ghost creation-order list). -/
theorem c9_list_insertion_order (s : SysState) (hreach : ReachableSys s) :
    s.mgr.get_all_tasks.map Task.id = s.created ∧ s.created.Nodup := by
  have hinv := inv_reachable hreach
  constructor
  · rw [get_all_tasks_ids hinv, hinv.2.2.1]
  · rw [← hinv.2.2.1]
    exact hinv.1

/-- Witness for C9 on the concrete three-operation run. -/
theorem c9_witness :
    sysC.mgr.get_all_tasks.map Task.id = sysC.created ∧ sysC.created.Nodup :=
  c9_list_insertion_order sysC reach_sysC

/-- C10: in every reachable state each stored task's id equals its key,
stored ids are pairwise distinct, and no operation ever changes a stored
task's id, url, description, task_type or created_at. -/
theorem c10_task_identity (s : SysState) (hreach : ReachableSys s) :
    (∀ p ∈ s.mgr.tasks, p.2.id = p.1) ∧
    (s.mgr.get_all_tasks.map Task.id).Nodup ∧
    (∀ s' : SysState, SysStep s s' → ∀ id t t',
       s.mgr.get_task id = some t → s'.mgr.get_task id = some t' →
       t'.id = t.id ∧ t'.url = t.url ∧ t'.description = t.description ∧
       t'.task_type = t.task_type ∧ t'.created_at = t.created_at) := by
  have hinv := inv_reachable hreach
  refine ⟨fun p hp => (hinv.2.1 p hp).1, ?_, ?_⟩
  · rw [get_all_tasks_ids hinv]
    exact hinv.1
  · intro s' hstep id t t' hget hget'
    rcases step_lookup_cases hinv hstep id with hc | ⟨url, d, ty, n, hnone, _⟩ |
      ⟨t0, n, hget0, _, hnew⟩ | ⟨t0, env, n, hget0, _, hnew⟩
    · rw [hc, hget] at hget'
      cases hget'
      exact ⟨rfl, rfl, rfl, rfl, rfl⟩
    · rw [hget] at hnone
      exact Option.noConfusion hnone
    · rw [hget0] at hget
      cases hget
      rw [hnew] at hget'
      cases hget'
      simp [Task.update_status]
    · rw [hget0] at hget
      cases hget
      rw [hnew] at hget'
      cases hget'
      exact worker_update_fields env t n

/-- Witness for C10: distinct stored ids in the concrete run. -/
theorem c10_witness : (sysC.mgr.get_all_tasks.map Task.id).Nodup :=
  (c10_task_identity sysC reach_sysC).2.1

end ABA
